import Mathlib

/-!
Verification of the AirResistanceSimulation repository.

The repository has two scripts:

* `simulation.py` — `simulate_drag` integrates a body subject to quadratic
  drag and a constant external force with explicit Euler steps, recording
  `times`, `positions`, `velocities` and `drag_forces` series.
* `y_pos.py` — a gravity-only vertical-throw script: a velocity timeline is
  built by repeatedly applying `vel_equation` until the velocity has fallen
  to `≤ -velocity` (the launch speed), and a position timeline is then
  accumulated from the recorded velocities.

Both are embedded below over `ℚ` (the scripts' arithmetic, idealised to
exact rationals), with the loops rendered as well-founded recursions whose
termination measures mirror the scripts' actual progress arguments.
-/

/-- Helper: the natural ceiling strictly drops when a positive rational is
decreased by one.  This drives both loop-termination measures. -/
lemma ceil_pred_lt {y : ℚ} (hy : 0 < y) : ⌈y - 1⌉₊ < ⌈y⌉₊ := by
  have h1 : 0 < ⌈y⌉₊ := Nat.ceil_pos.mpr hy
  have h2 : ⌈y - 1⌉₊ ≤ ⌈y⌉₊ - 1 := by
    apply Nat.ceil_le.mpr
    have h3 : ((⌈y⌉₊ - 1 : ℕ) : ℚ) = (⌈y⌉₊ : ℚ) - 1 := by
      push_cast [Nat.cast_sub h1]
      ring
    rw [h3]
    have := Nat.le_ceil y
    linarith
  omega

/-- The arguments of `simulate_drag` in `simulation.py`. -/
structure DragConfig where
  initial_velocity : ℚ
  mass : ℚ
  drag_coefficient : ℚ
  cross_sectional_area : ℚ
  fluid_density : ℚ
  force_constant : ℚ
  initial_position : ℚ
  time_step : ℚ
  max_time : ℚ

/-- `simulation.py` line 74: the drag force for the current velocity,
`0.5 * fluid_density * drag_coefficient * (current_velocity**2) * cross_sectional_area`. -/
def drag_force (cfg : DragConfig) (v : ℚ) : ℚ :=
  0.5 * cfg.fluid_density * cfg.drag_coefficient * v ^ 2 * cfg.cross_sectional_area

/-- `simulation.py` line 79: the net force,
`force_constant - drag_force if current_velocity > 0 else force_constant + drag_force`. -/
def net_force (cfg : DragConfig) (v : ℚ) : ℚ :=
  if 0 < v then cfg.force_constant - drag_force cfg v else cfg.force_constant + drag_force cfg v

/-- The mutable state of the `simulate_drag` while-loop: the three scalars
and the four series being accumulated. -/
@[ext] structure SimState where
  velocity : ℚ
  position : ℚ
  time : ℚ
  times : List ℚ
  positions : List ℚ
  velocities : List ℚ
  drag_forces : List ℚ

/-- One iteration of the `simulate_drag` loop body (`simulation.py`
lines 71–98): store the drag force for the current velocity, compute the
net force and acceleration, advance velocity (Euler), advance position
using the *current* velocity, advance time, clamp the new velocity with
`max(0, next_velocity)` and append the new samples. -/
def simStep (cfg : DragConfig) (s : SimState) : SimState :=
  let fd := drag_force cfg s.velocity
  let acceleration := net_force cfg s.velocity / cfg.mass
  let next_velocity := s.velocity + acceleration * cfg.time_step
  let new_position := s.position + s.velocity * cfg.time_step
  let new_time := s.time + cfg.time_step
  let clamped := max 0 next_velocity
  { velocity := clamped
    position := new_position
    time := new_time
    times := s.times ++ [new_time]
    positions := s.positions ++ [new_position]
    velocities := s.velocities ++ [clamped]
    drag_forces := s.drag_forces ++ [fd] }

/-- The `simulate_drag` while-loop (`simulation.py` line 70):
`while current_velocity > 1e-6 and current_time < max_time`.  Terminates
because each iteration advances `time` by the positive `time_step`. -/
def simLoop (cfg : DragConfig) (hdt : 0 < cfg.time_step) (s : SimState) : SimState :=
  if h : (1e-6 : ℚ) < s.velocity ∧ s.time < cfg.max_time then
    simLoop cfg hdt (simStep cfg s)
  else s
termination_by ⌈(cfg.max_time - s.time) / cfg.time_step⌉₊
decreasing_by
  have htime : (simStep cfg s).time = s.time + cfg.time_step := rfl
  rw [htime]
  have key : (cfg.max_time - (s.time + cfg.time_step)) / cfg.time_step
      = (cfg.max_time - s.time) / cfg.time_step - 1 := by
    field_simp
    ring
  rw [key]
  exact ceil_pred_lt (div_pos (by linarith [h.2]) hdt)

/-- The simulation setup of `simulation.py` lines 58–66: initial scalars,
singleton `times`/`positions`/`velocities` series and empty `drag_forces`. -/
def initState (cfg : DragConfig) : SimState :=
  { velocity := cfg.initial_velocity
    position := cfg.initial_position
    time := 0
    times := [0]
    positions := [cfg.initial_position]
    velocities := [cfg.initial_velocity]
    drag_forces := [] }

/-- `simulation.py` lines 100–106: once the loop has ended, if `velocities`
is non-empty, append a last drag-force sample computed from the final
recorded velocity and pad `drag_forces` with zeros while it is shorter
than `velocities`. -/
def finish_drag_forces (cfg : DragConfig) (s : SimState) : List ℚ :=
  if s.velocities.isEmpty then s.drag_forces
  else
    let df := s.drag_forces ++ [drag_force cfg (s.velocities.getLastD 0)]
    df ++ List.replicate (s.velocities.length - df.length) 0

/-- `simulate_drag` from `simulation.py`: validate the inputs
(lines 45–55), run the loop from the initial state (lines 58–98), then
finish the `drag_forces` series (lines 100–106).  Returns the
`(times, positions, velocities, drag_forces)` series; a `ValueError` is
modelled as `Except.error` carrying the source's message. -/
def simulate_drag (cfg : DragConfig) : Except String (List ℚ × List ℚ × List ℚ × List ℚ) :=
  if cfg.mass ≤ 0 then Except.error "Mass must be positive."
  else if hdt : cfg.time_step ≤ 0 then Except.error "Time step must be positive."
  else if cfg.cross_sectional_area < 0 then Except.error "Cross-sectional area cannot be negative."
  else if cfg.drag_coefficient < 0 then Except.error "Drag coefficient cannot be negative."
  else if cfg.fluid_density < 0 then Except.error "Fluid density cannot be negative."
  else
    let s := simLoop cfg (lt_of_not_le hdt) (initState cfg)
    Except.ok (s.times, s.positions, s.velocities, finish_drag_forces cfg s)

/-- Unfolding the loop when the condition holds. -/
lemma simLoop_step (cfg : DragConfig) (hdt : 0 < cfg.time_step) (s : SimState)
    (h : (1e-6 : ℚ) < s.velocity ∧ s.time < cfg.max_time) :
    simLoop cfg hdt s = simLoop cfg hdt (simStep cfg s) := by
  rw [simLoop, dif_pos h]

/-- Unfolding the loop when the condition fails. -/
lemma simLoop_exit (cfg : DragConfig) (hdt : 0 < cfg.time_step) (s : SimState)
    (h : ¬((1e-6 : ℚ) < s.velocity ∧ s.time < cfg.max_time)) :
    simLoop cfg hdt s = s := by
  rw [simLoop, dif_neg h]

/-- Any property preserved by the loop body holds of the loop's result. -/
lemma simLoop_inv (cfg : DragConfig) (hdt : 0 < cfg.time_step) (P : SimState → Prop)
    (hstep : ∀ s, (1e-6 : ℚ) < s.velocity ∧ s.time < cfg.max_time → P s → P (simStep cfg s)) :
    ∀ s, P s → P (simLoop cfg hdt s) := by
  intro s hs
  induction s using simLoop.induct cfg hdt with
  | case1 s h ih =>
    rw [simLoop_step cfg hdt s h]
    exact ih (hstep s h hs)
  | case2 s h =>
    rw [simLoop_exit cfg hdt s h]
    exact hs

/-- When all validation guards pass, `simulate_drag` returns the series of
the loop's final state. -/
lemma simulate_drag_eq (cfg : DragConfig) (h1 : ¬cfg.mass ≤ 0) (h2 : ¬cfg.time_step ≤ 0)
    (h3 : ¬cfg.cross_sectional_area < 0) (h4 : ¬cfg.drag_coefficient < 0)
    (h5 : ¬cfg.fluid_density < 0) :
    simulate_drag cfg =
      Except.ok ((simLoop cfg (lt_of_not_le h2) (initState cfg)).times,
        (simLoop cfg (lt_of_not_le h2) (initState cfg)).positions,
        (simLoop cfg (lt_of_not_le h2) (initState cfg)).velocities,
        finish_drag_forces cfg (simLoop cfg (lt_of_not_le h2) (initState cfg))) := by
  rw [simulate_drag, if_neg h1, dif_neg h2, if_neg h3, if_neg h4, if_neg h5]

/-- Inversion for a successful run: the guards were all false and the four
series are those of the loop's final state. -/
lemma simulate_drag_ok_elim (cfg : DragConfig) (t p v d : List ℚ)
    (hok : simulate_drag cfg = Except.ok (t, p, v, d)) :
    ∃ h2 : 0 < cfg.time_step,
      0 < cfg.mass ∧ 0 ≤ cfg.cross_sectional_area ∧ 0 ≤ cfg.drag_coefficient ∧
      0 ≤ cfg.fluid_density ∧
      t = (simLoop cfg h2 (initState cfg)).times ∧
      p = (simLoop cfg h2 (initState cfg)).positions ∧
      v = (simLoop cfg h2 (initState cfg)).velocities ∧
      d = finish_drag_forces cfg (simLoop cfg h2 (initState cfg)) := by
  rw [simulate_drag] at hok
  split_ifs at hok with h1 h2 h3 h4 h5
  simp only [Except.ok.injEq, Prod.mk.injEq] at hok
  exact ⟨lt_of_not_le h2, lt_of_not_le h1, not_lt.mp h3, not_lt.mp h4, not_lt.mp h5,
    hok.1.symm, hok.2.1.symm, hok.2.2.1.symm, hok.2.2.2.symm⟩

/-- The loop adds at most `⌈(max_time - time) / time_step⌉` samples to the
`times` series: the `current_time < max_time` conjunct bounds the iteration
count independently of the velocity predicate. -/
lemma simLoop_times_length (cfg : DragConfig) (hdt : 0 < cfg.time_step) (s : SimState) :
    (simLoop cfg hdt s).times.length
      ≤ s.times.length + ⌈(cfg.max_time - s.time) / cfg.time_step⌉₊ := by
  induction s using simLoop.induct cfg hdt with
  | case1 s h ih =>
    rw [simLoop_step cfg hdt s h]
    have hlen : (simStep cfg s).times.length = s.times.length + 1 := by
      simp [simStep]
    have htime : (simStep cfg s).time = s.time + cfg.time_step := rfl
    have key : (cfg.max_time - (s.time + cfg.time_step)) / cfg.time_step
        = (cfg.max_time - s.time) / cfg.time_step - 1 := by
      field_simp
      ring
    have hceil : ⌈(cfg.max_time - s.time) / cfg.time_step - 1⌉₊
        < ⌈(cfg.max_time - s.time) / cfg.time_step⌉₊ :=
      ceil_pred_lt (div_pos (by linarith [h.2]) hdt)
    calc (simLoop cfg hdt (simStep cfg s)).times.length
        ≤ (simStep cfg s).times.length
          + ⌈(cfg.max_time - (simStep cfg s).time) / cfg.time_step⌉₊ := ih
      _ = s.times.length + 1 + ⌈(cfg.max_time - s.time) / cfg.time_step - 1⌉₊ := by
          rw [hlen, htime, key]
      _ ≤ s.times.length + ⌈(cfg.max_time - s.time) / cfg.time_step⌉₊ := by omega
  | case2 s h =>
    rw [simLoop_exit cfg hdt s h]
    omega

namespace YPos

/-- `y_pos.py` line 4: `tick_speed = 0.01`. -/
def tick_speed : ℚ := 0.01

/-- `y_pos.py` line 5: `velocity = 40.45` (the launch speed). -/
def velocity : ℚ := 40.45

/-- `y_pos.py` line 7: `initial_y = 0`. -/
def initial_y : ℚ := 0

/-- `y_pos.py` line 9: `vel_equation = lambda t, v: v - (9.81)*t`. -/
def vel_equation (t v : ℚ) : ℚ := v - 9.81 * t

/-- The `while not vel_zero` loop of `y_pos.py` (lines 15–21): each
iteration first checks `iter_vel <= -velocity` (setting the exit flag),
then updates `iter_vel` through `vel_equation` and appends it, so the
iteration that observes the bound still performs one final update and
append before the loop exits.  Terminates because each iteration lowers
`iter_vel` by the fixed amount `9.81 * tick_speed`. -/
def velLoop (iter_vel : ℚ) (acc : List ℚ) : List ℚ :=
  if iter_vel ≤ -velocity then acc ++ [vel_equation tick_speed iter_vel]
  else velLoop (vel_equation tick_speed iter_vel) (acc ++ [vel_equation tick_speed iter_vel])
termination_by ⌈(iter_vel + velocity) / (9.81 * tick_speed)⌉₊
decreasing_by
  have hg : (0 : ℚ) < 9.81 * tick_speed := by norm_num [tick_speed]
  have hv : (0 : ℚ) < iter_vel + velocity := by
    push_neg at *
    linarith
  have key : (vel_equation tick_speed iter_vel + velocity) / (9.81 * tick_speed)
      = (iter_vel + velocity) / (9.81 * tick_speed) - 1 := by
    rw [vel_equation]
    field_simp
    ring
  rw [key]
  exact ceil_pred_lt (div_pos hv hg)

/-- `y_pos.py` lines 11–21: the recorded velocity timeline, starting from
the launch speed with an empty accumulator. -/
def velocity_timeline : List ℚ := velLoop velocity []

/-- `y_pos.py` lines 26–31: accumulate the y-position timeline from a
velocity list — `y_progress = vel*tick_speed; y_current += y_progress;
y_pos_timeline.append(y_current)`. -/
def yposFold : ℚ → List ℚ → List ℚ
  | _, [] => []
  | y, v :: rest => (y + v * tick_speed) :: yposFold (y + v * tick_speed) rest

/-- `y_pos.py` line 27 and the loop of lines 28–31. -/
def y_pos_timeline : List ℚ := yposFold initial_y velocity_timeline

/-- Closed form for the value of `iter_vel` at the top of iteration `k`
of the `y_pos.py` loop: `velocity - 9.81 * tick_speed * k`. -/
def iterVel (k : ℕ) : ℚ := velocity - 9.81 * tick_speed * k

lemma iterVel_zero : iterVel 0 = velocity := by
  simp [iterVel]

lemma iterVel_step (k : ℕ) : vel_equation tick_speed (iterVel k) = iterVel (k + 1) := by
  simp only [vel_equation, iterVel]
  push_cast
  ring

/-- The loop's predicate does not fire before iteration 825. -/
lemma iterVel_gt (k : ℕ) (hk : k ≤ 824) : -velocity < iterVel k := by
  have hk' : (k : ℚ) ≤ 824 := by exact_mod_cast hk
  simp only [iterVel, velocity, tick_speed]
  norm_num
  linarith

/-- The loop's predicate fires at iteration 825. -/
lemma iterVel_825 : iterVel 825 ≤ -velocity := by
  norm_num [iterVel, velocity, tick_speed]

/-- Closed form of the `y_pos.py` velocity loop: starting `m` iterations
before the firing one, it appends the next `m + 1` post-update values. -/
lemma velLoop_iterVel (m : ℕ) (hm : m ≤ 825) (acc : List ℚ) :
    velLoop (iterVel (825 - m)) acc
      = acc ++ (List.range' (825 - m + 1) (m + 1)).map iterVel := by
  induction m generalizing acc with
  | zero =>
    rw [velLoop, if_pos (by simpa using iterVel_825)]
    simp [iterVel_step, List.range']
  | succ n ih =>
    have hk : 825 - (n + 1) ≤ 824 := by omega
    have hk1 : 825 - (n + 1) + 1 = 825 - n := by omega
    rw [velLoop, if_neg (by exact not_le.mpr (iterVel_gt _ hk)), iterVel_step, hk1,
      ih (by omega)]
    rw [List.append_assoc]
    congr 1

/-- The velocity timeline is the first 826 post-update velocities. -/
lemma velocity_timeline_eq :
    velocity_timeline = (List.range' 1 826).map iterVel := by
  have h := velLoop_iterVel 825 le_rfl []
  simpa [iterVel_zero, velocity_timeline] using h

lemma velocity_timeline_length : velocity_timeline.length = 826 := by
  rw [velocity_timeline_eq]
  simp

lemma velocity_timeline_getD (j : ℕ) (hj : j < 826) :
    velocity_timeline.getD j 0 = iterVel (j + 1) := by
  rw [velocity_timeline_eq]
  have hlen : j < ((List.range' 1 826).map iterVel).length := by simpa using hj
  rw [List.getD_eq_getElem _ _ hlen]
  simp [Nat.add_comm]

lemma length_yposFold (y : ℚ) (l : List ℚ) : (yposFold y l).length = l.length := by
  induction l generalizing y with
  | nil => simp [yposFold]
  | cons v rest ih => simp [yposFold, ih]

lemma y_pos_timeline_length : y_pos_timeline.length = 826 := by
  rw [y_pos_timeline, length_yposFold, velocity_timeline_length]

lemma yposFold_getD_zero (y : ℚ) (l : List ℚ) (h : l ≠ []) :
    (yposFold y l).getD 0 0 = y + l.getD 0 0 * tick_speed := by
  cases l with
  | nil => exact absurd rfl h
  | cons v rest => simp [yposFold]

/-- Consecutive samples of the position timeline differ by the recorded
velocity at the later index times the tick. -/
lemma yposFold_getD_succ (l : List ℚ) (y : ℚ) (i : ℕ) (h : i + 1 < l.length) :
    (yposFold y l).getD (i + 1) 0
      = (yposFold y l).getD i 0 + l.getD (i + 1) 0 * tick_speed := by
  induction l generalizing y i with
  | nil => simp at h
  | cons v rest ih =>
    cases i with
    | zero =>
      cases rest with
      | nil => simp at h
      | cons w r2 => simp [yposFold]
    | succ i2 =>
      have h2 : i2 + 1 < rest.length := by
        simpa using h
      simpa [yposFold] using ih (y + v * tick_speed) i2 h2

end YPos

/-- A concrete valid run used to instantiate hypotheses: unit ball with no
external force, `time_step = max_time = 0.01`, so the loop runs exactly
once. -/
def cfgW : DragConfig :=
  { initial_velocity := 1
    mass := 1
    drag_coefficient := 1
    cross_sectional_area := 1
    fluid_density := 1
    force_constant := 0
    initial_position := 0
    time_step := 1/100
    max_time := 1/100 }

lemma simStep_cfgW :
    simStep cfgW (initState cfgW) =
      { velocity := 199/200
        position := 1/100
        time := 1/100
        times := [0, 1/100]
        positions := [0, 1/100]
        velocities := [1, 199/200]
        drag_forces := [1/2] } := by
  simp only [simStep, initState, cfgW, net_force, drag_force]
  norm_num [max_def]

lemma simLoop_cfgW (h : 0 < cfgW.time_step) :
    simLoop cfgW h (initState cfgW) =
      { velocity := 199/200
        position := 1/100
        time := 1/100
        times := [0, 1/100]
        positions := [0, 1/100]
        velocities := [1, 199/200]
        drag_forces := [1/2] } := by
  rw [simLoop_step _ _ _ ⟨by norm_num [initState, cfgW], by norm_num [initState, cfgW]⟩,
    simStep_cfgW, simLoop_exit]
  norm_num [cfgW]

/-- The concrete run `cfgW` evaluated in full. -/
lemma simulate_cfgW :
    simulate_drag cfgW
      = Except.ok ([0, 1/100], [0, 1/100], [1, 199/200], [1/2, 39601/80000]) := by
  rw [simulate_drag_eq cfgW (by norm_num [cfgW]) (by norm_num [cfgW]) (by norm_num [cfgW])
    (by norm_num [cfgW]) (by norm_num [cfgW]), simLoop_cfgW]
  simp only [finish_drag_forces, drag_force, cfgW]
  norm_num

/-- A concrete run with a large assisting external force (`100 N`) and the
same drag model as `cfgW`: the recorded velocity rises. -/
def cfg9 : DragConfig :=
  { initial_velocity := 1
    mass := 1
    drag_coefficient := 1
    cross_sectional_area := 1
    fluid_density := 1
    force_constant := 100
    initial_position := 0
    time_step := 1/100
    max_time := 1/100 }

lemma simStep_cfg9 :
    simStep cfg9 (initState cfg9) =
      { velocity := 399/200
        position := 1/100
        time := 1/100
        times := [0, 1/100]
        positions := [0, 1/100]
        velocities := [1, 399/200]
        drag_forces := [1/2] } := by
  simp only [simStep, initState, cfg9, net_force, drag_force]
  norm_num [max_def]

lemma simLoop_cfg9 (h : 0 < cfg9.time_step) :
    simLoop cfg9 h (initState cfg9) =
      { velocity := 399/200
        position := 1/100
        time := 1/100
        times := [0, 1/100]
        positions := [0, 1/100]
        velocities := [1, 399/200]
        drag_forces := [1/2] } := by
  rw [simLoop_step _ _ _ ⟨by norm_num [initState, cfg9], by norm_num [initState, cfg9]⟩,
    simStep_cfg9, simLoop_exit]
  norm_num [cfg9]

/-- The concrete run `cfg9` evaluated in full. -/
lemma simulate_cfg9 :
    simulate_drag cfg9
      = Except.ok ([0, 1/100], [0, 1/100], [1, 399/200], [1/2, 159201/80000]) := by
  rw [simulate_drag_eq cfg9 (by norm_num [cfg9]) (by norm_num [cfg9]) (by norm_num [cfg9])
    (by norm_num [cfg9]) (by norm_num [cfg9]), simLoop_cfg9]
  simp only [finish_drag_forces, drag_force, cfg9]
  norm_num

/-- A coarse-step configuration whose single Euler step overshoots zero:
`next_velocity = -9` while the pre-step velocity is `+1`. -/
def cfg2 : DragConfig :=
  { initial_velocity := 1
    mass := 1
    drag_coefficient := 2
    cross_sectional_area := 1
    fluid_density := 1
    force_constant := 0
    initial_position := 0
    time_step := 10
    max_time := 100 }

namespace YPos

lemma velocity_timeline_ne_nil : velocity_timeline ≠ [] := by
  intro hn
  have h := velocity_timeline_length
  rw [hn] at h
  simp at h

/-- The post-update velocity is still positive through update 412. -/
lemma iterVel_pos (j : ℕ) (hj : j ≤ 412) : 0 < iterVel j := by
  have hj' : (j : ℚ) ≤ 412 := by exact_mod_cast hj
  simp only [iterVel, velocity, tick_speed]
  norm_num
  linarith

/-- The post-update velocity is negative from update 413 on. -/
lemma iterVel_neg (j : ℕ) (hj : 413 ≤ j) : iterVel j < 0 := by
  have hj' : (413 : ℚ) ≤ (j : ℚ) := by exact_mod_cast hj
  simp only [iterVel, velocity, tick_speed]
  norm_num
  linarith

/-- Consecutive position samples differ by `iterVel (i+2) * tick_speed`,
the *post-update* velocity of step `i+2` times the tick. -/
lemma y_pos_diff (i : ℕ) (h : i + 1 < 826) :
    y_pos_timeline.getD (i + 1) 0
      = y_pos_timeline.getD i 0 + iterVel (i + 2) * tick_speed := by
  rw [y_pos_timeline,
    yposFold_getD_succ _ _ i (by rw [velocity_timeline_length]; exact h),
    velocity_timeline_getD (i + 1) (by omega)]

end YPos

/-- C1, counterexample.  The gravity-only loop of `y_pos.py` runs 826
iterations, ending only through its velocity predicate: it consults no
`max_time` at all, so for a policy with `maxTime = 1` (and the script's
`timeStep = 0.01`) the claimed bound of `maxTime / timeStep = 100` steps
is exceeded. -/
theorem claim1_cex :
    YPos.velocity_timeline.length = 826 ∧
    ⌈(1 : ℚ) / YPos.tick_speed⌉₊ + 1 < YPos.velocity_timeline.length := by
  have h100 : (1 : ℚ) / YPos.tick_speed = ((100 : ℕ) : ℚ) := by
    norm_num [YPos.tick_speed]
  refine ⟨YPos.velocity_timeline_length, ?_⟩
  rw [YPos.velocity_timeline_length, h100, Nat.ceil_natCast]
  norm_num

/-- C1, amended.  For `simulate_drag`, the `current_time < max_time`
conjunct of the loop condition bounds every run by
`⌈max_time / time_step⌉` iterations regardless of the velocity predicate:
each returned series has at most `⌈max_time / time_step⌉ + 1` samples.
(The gravity-only `y_pos.py` loop carries no such bound; see the
counterexample.) -/
theorem claim1_thm (cfg : DragConfig) (t p v d : List ℚ)
    (hok : simulate_drag cfg = Except.ok (t, p, v, d)) :
    t.length ≤ ⌈cfg.max_time / cfg.time_step⌉₊ + 1 := by
  obtain ⟨h2, -, -, -, -, ht, -, -, -⟩ := simulate_drag_ok_elim cfg t p v d hok
  have hb := simLoop_times_length cfg h2 (initState cfg)
  have e1 : (initState cfg).times.length = 1 := rfl
  have e2 : cfg.max_time - (initState cfg).time = cfg.max_time := by
    show cfg.max_time - 0 = cfg.max_time
    ring
  rw [e1, e2] at hb
  rw [ht]
  omega

/-- C1, witness for the amended theorem at the concrete run `cfgW`. -/
theorem claim1_wit :
    ([0, 1/100] : List ℚ).length ≤ ⌈cfgW.max_time / cfgW.time_step⌉₊ + 1 :=
  claim1_thm cfgW [0, 1/100] [0, 1/100] [1, 199/200] [1/2, 39601/80000] simulate_cfgW

/-- C2, counterexample.  In the run `cfg2` the pre-step velocity is `+1`
(positive) while the unclamped Euler update `velocity'` is `-9`
(negative): the two have *opposite* signs, yet the integrator still
clamps, storing `max(0, -9) = 0`.  The clamp is therefore not restricted
to the same-sign, magnitude-decreasing case. -/
theorem claim2_cex :
    (0 : ℚ) < (initState cfg2).velocity ∧
    (initState cfg2).velocity
        + net_force cfg2 (initState cfg2).velocity / cfg2.mass * cfg2.time_step = -9 ∧
    (simStep cfg2 (initState cfg2)).velocity = 0 := by
  refine ⟨by norm_num [initState, cfg2], ?_, ?_⟩
  · norm_num [initState, cfg2, net_force, drag_force]
  · simp only [simStep, initState, cfg2, net_force, drag_force]
    norm_num [max_def]

/-- C2, amended.  The drag-stopping integrator applies the clamp
`max(0, velocity')` unconditionally on every step (it takes effect exactly
when `velocity'` dropped below zero, i.e. when `velocity'` and the
positive pre-step velocity have opposite signs); the free-fall body of
`y_pos.py` applies no clamp and keeps negative velocities, as its 826th
recorded sample is negative. -/
theorem claim2_thm :
    (∀ (cfg : DragConfig) (s : SimState),
      (simStep cfg s).velocity
        = max 0 (s.velocity + net_force cfg s.velocity / cfg.mass * cfg.time_step)) ∧
    YPos.velocity_timeline.getD 825 0 < 0 := by
  constructor
  · intro cfg s
    rfl
  · rw [YPos.velocity_timeline_getD 825 (by norm_num)]
    exact YPos.iterVel_neg 826 (by norm_num)

/-- C3, counterexample.  The first sample of the `y_pos.py` position
series is `(velocity - 9.81 * tick_speed) * tick_speed = 0.403519`, built
from the *post-update* velocity, not the pre-step value
`velocity * tick_speed = 0.4045`. -/
theorem claim3_cex :
    YPos.y_pos_timeline.getD 0 0 = 403519/1000000 ∧
    YPos.velocity * YPos.tick_speed = 4045/10000 ∧
    (403519/1000000 : ℚ) ≠ 4045/10000 := by
  refine ⟨?_, by norm_num [YPos.velocity, YPos.tick_speed], by norm_num⟩
  rw [YPos.y_pos_timeline, YPos.yposFold_getD_zero _ _ YPos.velocity_timeline_ne_nil,
    YPos.velocity_timeline_getD 0 (by norm_num)]
  norm_num [YPos.initial_y, YPos.iterVel, YPos.velocity, YPos.tick_speed]

/-- C3, amended.  `simulate_drag`'s position update uses the pre-step
velocity (`position' = position + velocity * time_step`), but the
`y_pos.py` position series is accumulated from the recorded velocity
timeline, whose entries are the freshly *updated* per-step velocities:
its first entry is `vel_equation tick_speed velocity`, and each position
sample advances by the recorded (post-update) velocity times the tick. -/
theorem claim3_thm :
    (∀ (cfg : DragConfig) (s : SimState),
      (simStep cfg s).position = s.position + s.velocity * cfg.time_step) ∧
    YPos.velocity_timeline.getD 0 0 = YPos.vel_equation YPos.tick_speed YPos.velocity ∧
    (∀ i : ℕ, i + 1 < 826 →
      YPos.y_pos_timeline.getD (i + 1) 0
        = YPos.y_pos_timeline.getD i 0
          + YPos.velocity_timeline.getD (i + 1) 0 * YPos.tick_speed) := by
  refine ⟨fun cfg s => rfl, ?_, ?_⟩
  · rw [YPos.velocity_timeline_getD 0 (by norm_num), ← YPos.iterVel_zero,
      YPos.iterVel_step 0]
  · intro i hi
    rw [YPos.y_pos_diff i hi, YPos.velocity_timeline_getD (i + 1) (by omega)]

/-- C3, witness for the amended theorem at index 0 of the position series. -/
theorem claim3_wit :
    YPos.y_pos_timeline.getD 1 0
      = YPos.y_pos_timeline.getD 0 0 + YPos.velocity_timeline.getD 1 0 * YPos.tick_speed :=
  claim3_thm.2.2 0 (by norm_num)

/-- C4 (confirmed).  The net force combines the constant external force
with drag opposing motion: if `velocity > 0` then
`net = force_constant - drag_force`, and if `velocity ≤ 0` then
`net = force_constant + drag_force`, exactly. -/
theorem claim4_thm (cfg : DragConfig) (v : ℚ) :
    (0 < v → net_force cfg v = cfg.force_constant - drag_force cfg v) ∧
    (v ≤ 0 → net_force cfg v = cfg.force_constant + drag_force cfg v) := by
  constructor
  · intro h
    rw [net_force, if_pos h]
  · intro h
    rw [net_force, if_neg (not_lt.mpr h)]

/-- C4, witness at `v = 2` and `v = -3` for the run `cfgW`. -/
theorem claim4_wit :
    net_force cfgW 2 = cfgW.force_constant - drag_force cfgW 2 ∧
    net_force cfgW (-3) = cfgW.force_constant + drag_force cfgW (-3) :=
  ⟨(claim4_thm cfgW 2).1 (by norm_num), (claim4_thm cfgW (-3)).2 (by norm_num)⟩

/-- With non-negative drag-model parameters the drag force is non-negative
for every velocity. -/
lemma drag_force_nonneg (cfg : DragConfig) (v : ℚ) (hd : 0 ≤ cfg.fluid_density)
    (hc : 0 ≤ cfg.drag_coefficient) (ha : 0 ≤ cfg.cross_sectional_area) :
    0 ≤ drag_force cfg v :=
  mul_nonneg (mul_nonneg (mul_nonneg (mul_nonneg (by norm_num) hd) hc) (sq_nonneg v)) ha

/-- C5 (confirmed).  The drag force is
`0.5 * fluidDensity * dragCoefficient * crossSectionalArea * velocity²`,
and every entry of the returned `drag_forces` series of a successful run
is non-negative. -/
theorem claim5_thm (cfg : DragConfig) (t p v d : List ℚ)
    (hok : simulate_drag cfg = Except.ok (t, p, v, d)) :
    (∀ w : ℚ, drag_force cfg w
        = 0.5 * cfg.fluid_density * cfg.drag_coefficient * cfg.cross_sectional_area * w ^ 2) ∧
    ∀ x ∈ d, 0 ≤ x := by
  obtain ⟨h2, hm, ha, hc, hd, -, -, -, hdf⟩ := simulate_drag_ok_elim cfg t p v d hok
  have hnn : ∀ w : ℚ, 0 ≤ drag_force cfg w := fun w => drag_force_nonneg cfg w hd hc ha
  refine ⟨fun w => by rw [drag_force]; ring, ?_⟩
  have hloop : ∀ x ∈ (simLoop cfg h2 (initState cfg)).drag_forces, 0 ≤ x := by
    refine simLoop_inv cfg h2 (fun s => ∀ x ∈ s.drag_forces, 0 ≤ x) ?_ (initState cfg) ?_
    · intro s hcond hs x hx
      have he : (simStep cfg s).drag_forces
          = s.drag_forces ++ [drag_force cfg s.velocity] := rfl
      rw [he, List.mem_append] at hx
      rcases hx with hx | hx
      · exact hs x hx
      · rw [List.mem_singleton] at hx
        rw [hx]
        exact hnn s.velocity
    · intro x hx
      simp [initState] at hx
  rw [hdf, finish_drag_forces]
  intro x hx
  split_ifs at hx with hemp
  · exact hloop x hx
  · simp only [List.mem_append, List.mem_replicate, List.mem_singleton] at hx
    rcases hx with (hx | hx) | hx
    · exact hloop x hx
    · rw [hx]
      exact hnn _
    · exact hx.2.ge

/-- C5, witness at the concrete run `cfgW`. -/
theorem claim5_wit :
    (∀ w : ℚ, drag_force cfgW w
        = 0.5 * cfgW.fluid_density * cfgW.drag_coefficient * cfgW.cross_sectional_area * w ^ 2) ∧
    ∀ x ∈ ([1/2, 39601/80000] : List ℚ), 0 ≤ x :=
  claim5_thm cfgW [0, 1/100] [0, 1/100] [1, 199/200] [1/2, 39601/80000] simulate_cfgW

/-- C6 (confirmed).  The four series of a successful run all have the same
length: the loop appends to all four in lockstep, and after the loop one
final drag sample (plus zero-padding, which is vacuous) tops
`drag_forces` up to the length of `velocities`. -/
theorem claim6_thm (cfg : DragConfig) (t p v d : List ℚ)
    (hok : simulate_drag cfg = Except.ok (t, p, v, d)) :
    t.length = v.length ∧ p.length = v.length ∧ d.length = v.length := by
  obtain ⟨h2, -, -, -, -, ht, hp, hv, hd⟩ := simulate_drag_ok_elim cfg t p v d hok
  have key :
      (simLoop cfg h2 (initState cfg)).times.length
          = (simLoop cfg h2 (initState cfg)).velocities.length ∧
      (simLoop cfg h2 (initState cfg)).positions.length
          = (simLoop cfg h2 (initState cfg)).velocities.length ∧
      (simLoop cfg h2 (initState cfg)).drag_forces.length + 1
          = (simLoop cfg h2 (initState cfg)).velocities.length := by
    refine simLoop_inv cfg h2
      (fun s => s.times.length = s.velocities.length ∧
        s.positions.length = s.velocities.length ∧
        s.drag_forces.length + 1 = s.velocities.length) ?_ (initState cfg) ?_
    · intro s hcond hs
      obtain ⟨a, b, c⟩ := hs
      simp only [simStep, List.length_append, List.length_singleton]
      omega
    · simp [initState]
  obtain ⟨k1, k2, k3⟩ := key
  have hvne : (simLoop cfg h2 (initState cfg)).velocities ≠ [] := by
    intro hnil
    rw [hnil] at k3
    simp at k3
  refine ⟨by rw [ht, hv]; exact k1, by rw [hp, hv]; exact k2, ?_⟩
  rw [hd, hv, finish_drag_forces, if_neg (by simpa using hvne)]
  simp only [List.length_append, List.length_replicate, List.length_singleton]
  omega

/-- C6, witness at the concrete run `cfgW`. -/
theorem claim6_wit :
    ([0, 1/100] : List ℚ).length = ([1, 199/200] : List ℚ).length ∧
    ([0, 1/100] : List ℚ).length = ([1, 199/200] : List ℚ).length ∧
    ([1/2, 39601/80000] : List ℚ).length = ([1, 199/200] : List ℚ).length :=
  claim6_thm cfgW [0, 1/100] [0, 1/100] [1, 199/200] [1/2, 39601/80000] simulate_cfgW

/-- C7 (confirmed).  `simulate_drag` fails with a `ValueError` exactly when
`mass ≤ 0`, `time_step ≤ 0`, or one of `cross_sectional_area`,
`drag_coefficient`, `fluid_density` is negative; the checks run before the
loop and an error run returns no series at all. -/
theorem claim7_thm (cfg : DragConfig) :
    (∃ e, simulate_drag cfg = Except.error e) ↔
      (cfg.mass ≤ 0 ∨ cfg.time_step ≤ 0 ∨ cfg.cross_sectional_area < 0 ∨
        cfg.drag_coefficient < 0 ∨ cfg.fluid_density < 0) := by
  rw [simulate_drag]
  split_ifs with h1 h2 h3 h4 h5 <;> simp_all

/-- A configuration rejected by validation: zero mass. -/
def cfgBad : DragConfig :=
  { initial_velocity := 1
    mass := 0
    drag_coefficient := 1
    cross_sectional_area := 1
    fluid_density := 1
    force_constant := 0
    initial_position := 0
    time_step := 1/100
    max_time := 1 }

/-- C7, witness: the zero-mass configuration is rejected. -/
theorem claim7_wit : ∃ e, simulate_drag cfgBad = Except.error e :=
  (claim7_thm cfgBad).mpr (Or.inl (by norm_num [cfgBad]))

/-- C8 (confirmed).  The gravity-only run of `y_pos.py` terminates exactly
when the velocity has crossed the symmetric bound `≤ -velocity`: none of
the first 825 top-of-loop checks (the initial velocity and recorded
samples 0–823) fires, sample 824 does, and the loop stops after its 826th
append.  The position series rises strictly up to its apex at index 411
and falls strictly afterwards. -/
theorem claim8_thm :
    YPos.velocity_timeline.length = 826 ∧
    -YPos.velocity < YPos.velocity ∧
    (∀ j : ℕ, j < 824 → -YPos.velocity < YPos.velocity_timeline.getD j 0) ∧
    YPos.velocity_timeline.getD 824 0 ≤ -YPos.velocity ∧
    (∀ i : ℕ, i < 411 →
      YPos.y_pos_timeline.getD i 0 < YPos.y_pos_timeline.getD (i + 1) 0) ∧
    (∀ i : ℕ, 411 ≤ i → i < 825 →
      YPos.y_pos_timeline.getD (i + 1) 0 < YPos.y_pos_timeline.getD i 0) := by
  have htick : (0 : ℚ) < YPos.tick_speed := by norm_num [YPos.tick_speed]
  refine ⟨YPos.velocity_timeline_length, by norm_num [YPos.velocity], ?_, ?_, ?_, ?_⟩
  · intro j hj
    rw [YPos.velocity_timeline_getD j (by omega)]
    exact YPos.iterVel_gt (j + 1) (by omega)
  · rw [YPos.velocity_timeline_getD 824 (by norm_num)]
    exact YPos.iterVel_825
  · intro i hi
    rw [YPos.y_pos_diff i (by omega)]
    have hpos : 0 < YPos.iterVel (i + 2) := YPos.iterVel_pos (i + 2) (by omega)
    linarith [mul_pos hpos htick]
  · intro i h1 h2
    rw [YPos.y_pos_diff i (by omega)]
    have hneg : YPos.iterVel (i + 2) < 0 := YPos.iterVel_neg (i + 2) (by omega)
    linarith [mul_neg_of_neg_of_pos hneg htick]

/-- C8, witness: the first check does not fire, the position series rises
at the start and falls just past the apex. -/
theorem claim8_wit :
    -YPos.velocity < YPos.velocity_timeline.getD 0 0 ∧
    YPos.y_pos_timeline.getD 0 0 < YPos.y_pos_timeline.getD 1 0 ∧
    YPos.y_pos_timeline.getD 412 0 < YPos.y_pos_timeline.getD 411 0 :=
  ⟨claim8_thm.2.2.1 0 (by norm_num), claim8_thm.2.2.2.2.1 0 (by norm_num),
    claim8_thm.2.2.2.2.2 411 le_rfl (by norm_num)⟩

/-- C9, counterexample.  A run with all drag parameters positive but a
large assisting external force (`100 N`): the recorded velocities are
`[1, 1.995]`, which is increasing — a run's velocities need not be
non-increasing when the external force dominates drag. -/
theorem claim9_cex :
    simulate_drag cfg9
        = Except.ok ([0, 1/100], [0, 1/100], [1, 399/200], [1/2, 159201/80000]) ∧
    0 < cfg9.drag_coefficient ∧ 0 < cfg9.cross_sectional_area ∧ 0 < cfg9.fluid_density ∧
    ¬((399/200 : ℚ) ≤ 1) :=
  ⟨simulate_cfg9, by norm_num [cfg9], by norm_num [cfg9], by norm_num [cfg9], by norm_num⟩

/-- C9, amended.  For a run with all drag-model parameters positive *and
non-positive external force*, the velocities series is non-increasing. -/
theorem claim9_thm (cfg : DragConfig) (t p v d : List ℚ)
    (hc : 0 < cfg.drag_coefficient) (ha : 0 < cfg.cross_sectional_area)
    (hd : 0 < cfg.fluid_density) (hf : cfg.force_constant ≤ 0)
    (hok : simulate_drag cfg = Except.ok (t, p, v, d)) :
    List.Chain' (fun a b => b ≤ a) v := by
  obtain ⟨h2, hm, -, -, -, -, -, hv, -⟩ := simulate_drag_ok_elim cfg t p v d hok
  have key :
      List.Chain' (fun a b => b ≤ a) (simLoop cfg h2 (initState cfg)).velocities ∧
      (simLoop cfg h2 (initState cfg)).velocities.getLast?
        = some (simLoop cfg h2 (initState cfg)).velocity := by
    refine simLoop_inv cfg h2
      (fun s => List.Chain' (fun a b => b ≤ a) s.velocities ∧
        s.velocities.getLast? = some s.velocity) ?_ (initState cfg) ?_
    · intro s hcond hs
      obtain ⟨hch, hla⟩ := hs
      have hvpos : (0 : ℚ) < s.velocity := lt_trans (by norm_num) hcond.1
      have hdrag : 0 < drag_force cfg s.velocity := by
        have hv2 : (0 : ℚ) < s.velocity ^ 2 := pow_pos hvpos 2
        exact mul_pos (mul_pos (mul_pos (mul_pos (by norm_num) hd) hc) hv2) ha
      have hnet : net_force cfg s.velocity < 0 := by
        rw [net_force, if_pos hvpos]
        linarith
      have hqd : net_force cfg s.velocity / cfg.mass < 0 := div_neg_of_neg_of_pos hnet hm
      have hlt : s.velocity + net_force cfg s.velocity / cfg.mass * cfg.time_step
          < s.velocity := by
        linarith [mul_neg_of_neg_of_pos hqd h2]
      have hcl : max 0 (s.velocity + net_force cfg s.velocity / cfg.mass * cfg.time_step)
          ≤ s.velocity := max_le (le_of_lt hvpos) (le_of_lt hlt)
      have he : (simStep cfg s).velocities = s.velocities
          ++ [max 0 (s.velocity + net_force cfg s.velocity / cfg.mass * cfg.time_step)] := rfl
      constructor
      · rw [he, List.chain'_append]
        refine ⟨hch, List.chain'_singleton _, ?_⟩
        intro x hx y hy
        rw [hla, Option.mem_some_iff] at hx
        simp only [List.head?_cons, Option.mem_some_iff] at hy
        rw [← hx, ← hy]
        exact hcl
      · rw [he, List.getLast?_concat]
        rfl
    · exact ⟨List.chain'_singleton _, rfl⟩
  rw [hv]
  exact key.1

/-- C9, witness for the amended theorem at the concrete run `cfgW`. -/
theorem claim9_wit : List.Chain' (fun a b => b ≤ a) ([1, 199/200] : List ℚ) :=
  claim9_thm cfgW [0, 1/100] [0, 1/100] [1, 199/200] [1/2, 39601/80000]
    (by norm_num [cfgW]) (by norm_num [cfgW]) (by norm_num [cfgW]) (by norm_num [cfgW])
    simulate_cfgW

/-- C10 (confirmed).  In every successful run the first recorded velocity
is the caller-supplied initial velocity unmodified, and every later
recorded velocity is non-negative: each loop iteration stores
`max(0, next_velocity)`, whatever the sign of the external force. -/
theorem claim10_thm (cfg : DragConfig) (t p v d : List ℚ)
    (hok : simulate_drag cfg = Except.ok (t, p, v, d)) :
    v.head? = some cfg.initial_velocity ∧ ∀ x ∈ v.tail, 0 ≤ x := by
  obtain ⟨h2, -, -, -, -, -, -, hv, -⟩ := simulate_drag_ok_elim cfg t p v d hok
  have key :
      (simLoop cfg h2 (initState cfg)).velocities ≠ [] ∧
      (simLoop cfg h2 (initState cfg)).velocities.head? = some cfg.initial_velocity ∧
      ∀ x ∈ (simLoop cfg h2 (initState cfg)).velocities.tail, 0 ≤ x := by
    refine simLoop_inv cfg h2
      (fun s => s.velocities ≠ [] ∧ s.velocities.head? = some cfg.initial_velocity ∧
        ∀ x ∈ s.velocities.tail, 0 ≤ x) ?_ (initState cfg) ?_
    · intro s hcond hs
      obtain ⟨hne, hhd, htl⟩ := hs
      obtain ⟨a, l, hal⟩ := List.exists_cons_of_ne_nil hne
      have he : (simStep cfg s).velocities = s.velocities
          ++ [max 0 (s.velocity + net_force cfg s.velocity / cfg.mass * cfg.time_step)] := rfl
      refine ⟨by rw [he, hal]; simp, ?_, ?_⟩
      · rw [he, hal, List.cons_append, List.head?_cons]
        rw [hal, List.head?_cons] at hhd
        exact hhd
      · intro x hx
        rw [he, hal] at hx
        simp only [List.cons_append, List.tail_cons, List.mem_append,
          List.mem_singleton] at hx
        rcases hx with hx | hx
        · refine htl x ?_
          rw [hal, List.tail_cons]
          exact hx
        · rw [hx]
          exact le_max_left 0 _
    · exact ⟨by simp [initState], rfl, by simp [initState]⟩
  exact ⟨by rw [hv]; exact key.2.1, by rw [hv]; exact key.2.2⟩

/-- C10, witness at the concrete run `cfg9` (positive external force). -/
theorem claim10_wit :
    ([1, 399/200] : List ℚ).head? = some cfg9.initial_velocity ∧
    ∀ x ∈ ([1, 399/200] : List ℚ).tail, 0 ≤ x :=
  claim10_thm cfg9 [0, 1/100] [0, 1/100] [1, 399/200] [1/2, 159201/80000] simulate_cfg9
